import Mathlib

/- Verification of the snapshot framing and integrity-verification layer
   (internal/rsm/snapshotio.go): the fixed header region with its
   length-prefixed, checksum-bearing header record, the two-pass write
   protocol, the read protocol with the version-2 payload limit, the
   closed checksum/version dispatch, and the chunked snapshot validator.

   Bytes are modelled as `List Nat` (each entry a byte value), files as
   byte lists, machine integers as `Nat` with explicit `% 2 ^ 64` where
    64-bit wrap-around matters.  Fallible operations return `Option` or
   `Except`; a `none` / `.error .fatal` result models a Go panic. -/

namespace Rsm

/-- Little-endian byte encoding of a number, `k` bytes wide
    (binary.LittleEndian.PutUint64 with k = 8). -/
def leBytes : Nat → Nat → List Nat
  | 0, _ => []
  | k + 1, n => n % 256 :: leBytes k (n / 256)

/-- Little-endian decoding of a byte list (binary.LittleEndian.Uint64
    applied to the first 8 bytes). -/
def leUint : List Nat → Nat
  | [] => 0
  | b :: bs => b + 256 * leUint bs

/-- The reflected CRC-32 (IEEE) generator polynomial 0xEDB88320. -/
def crcPoly : Nat := 0xEDB88320

/-- One bit step of the reflected CRC-32 computation. -/
def crcBit (x : Nat) : Nat :=
  if x % 2 = 1 then Nat.xor (x / 2) crcPoly else x / 2

/-- One byte step of the reflected CRC-32 computation. -/
def crcByte (c b : Nat) : Nat :=
  crcBit (crcBit (crcBit (crcBit (crcBit (crcBit (crcBit (crcBit (Nat.xor c (b % 256)))))))))

/-- CRC-32 (IEEE polynomial) over a byte list, as in hash/crc32.NewIEEE. -/
def crc32 (data : List Nat) : Nat :=
  Nat.xor (data.foldl crcByte 0xFFFFFFFF) 0xFFFFFFFF

/-- Big-endian 4-byte serialization of a 32-bit value, as produced by the
    Sum method of the crc32 digest. -/
def beBytes4 (n : Nat) : List Nat :=
  [n / 2 ^ 24 % 256, n / 2 ^ 16 % 256, n / 2 ^ 8 % 256, n % 256]

/-- The byte string returned by hashing a byte list with the CRC-32 (IEEE)
    accumulator and calling Sum. -/
def crc32sum (data : List Nat) : List Nat := beBytes4 (crc32 data)

/-- Modelled from the spec: settings.SnapshotHeaderSize (the fixed
    header-region size H, a build-time constant shared by writer and
    reader; internal/settings is not part of the sources).  We use the
    concrete value 1024. -/
def SnapshotHeaderSize : Nat := 1024

/-- Modelled from the spec: the pb.ChecksumType identifier of the
    implemented CRC-32 IEEE algorithm (raftpb is not part of the
    sources). -/
def CRC32IEEE : Nat := 0

/-- Modelled from the spec: the reserved pb.ChecksumType identifier of
    the unimplemented highway-hash algorithm. -/
def HIGHWAY : Nat := 1

/-- getChecksum: maps a checksum-type identifier to a hash accumulator
    (modelled as the function from hashed bytes to the Sum output).
    The HIGHWAY branch and the catch-all branch both panic in the source;
    a panic is modelled as `none`. -/
def getChecksum (t : Nat) : Option (List Nat → List Nat) :=
  if t = CRC32IEEE then some crc32sum
  else if t = HIGHWAY then none
  else none

/-- getChecksumType: the process-wide default checksum type. -/
def getChecksumType : Nat := CRC32IEEE

/-- getDefaultChecksum: hash accumulator for the default checksum type. -/
def getDefaultChecksum : Option (List Nat → List Nat) :=
  getChecksum getChecksumType

/-- The snapshot header record (pb.SnapshotHeader).  Checksums are byte
    strings; the numeric fields are uint64 values. -/
structure SnapshotHeader where
  SessionSize : Nat
  DataStoreSize : Nat
  UnreliableTime : Nat
  HeaderChecksum : List Nat
  PayloadChecksum : List Nat
  ChecksumType : Nat
  Version : Nat
deriving DecidableEq

/-- Modelled from the spec: serialization of the header record (the
    generated raftpb Marshal is not part of the sources).  Every listed
    wire field is written, the numeric fields as 8-byte little-endian
    words and the two checksum fields length-prefixed; the spec fixes the
    field set but not the order, which only has to round-trip. -/
def SnapshotHeader.Marshal (h : SnapshotHeader) : List Nat :=
  leBytes 8 h.SessionSize ++ (leBytes 8 h.DataStoreSize ++ (leBytes 8 h.UnreliableTime ++
    (leBytes 8 h.PayloadChecksum.length ++ (h.PayloadChecksum ++
      (leBytes 8 h.ChecksumType ++ (leBytes 8 h.Version ++
        (leBytes 8 h.HeaderChecksum.length ++ h.HeaderChecksum)))))))

/-- Reads one 8-byte little-endian word from the front of a byte list. -/
def readU64 (b : List Nat) : Option (Nat × List Nat) :=
  if 8 ≤ b.length then some (leUint (b.take 8), b.drop 8) else none

/-- Reads `n` raw bytes from the front of a byte list. -/
def readBytes (n : Nat) (b : List Nat) : Option (List Nat × List Nat) :=
  if n ≤ b.length then some (b.take n, b.drop n) else none

/-- Modelled from the spec: deserialization of the header record (the
    generated raftpb Unmarshal is not part of the sources); fails on any
    truncated or trailing input. -/
def SnapshotHeader.Unmarshal (b : List Nat) : Option SnapshotHeader :=
  (readU64 b).bind fun p1 =>
  (readU64 p1.2).bind fun p2 =>
  (readU64 p2.2).bind fun p3 =>
  (readU64 p3.2).bind fun p4 =>
  (readBytes p4.1 p4.2).bind fun p5 =>
  (readU64 p5.2).bind fun p6 =>
  (readU64 p6.2).bind fun p7 =>
  (readU64 p7.2).bind fun p8 =>
  (readBytes p8.1 p8.2).bind fun p9 =>
  if p9.2 = [] then some ⟨p1.1, p2.1, p3.1, p9.1, p5.1, p6.1, p7.1⟩ else none

/-- The header with every uint64 field reduced to its 64-bit value; this
    is what deserializing a serialized header yields. -/
def canonHeader (h : SnapshotHeader) : SnapshotHeader :=
  ⟨h.SessionSize % 2 ^ 64, h.DataStoreSize % 2 ^ 64, h.UnreliableTime % 2 ^ 64,
   h.HeaderChecksum, h.PayloadChecksum, h.ChecksumType % 2 ^ 64, h.Version % 2 ^ 64⟩

/-- A version-strategy writer (IVWriter), described by its version tag,
    the file bytes it emits past the header region for a fully written
    and flushed payload, and its finalized payload checksum.
    Modelled from the spec: the concrete v1/v2 writers are not part of
    the sources. -/
structure IVWriter where
  version : Nat
  fileBytes : List Nat → List Nat
  payloadSum : List Nat → List Nat

/-- Modelled from the spec: the version-1 writer emits the payload as a
    flat byte stream with a running CRC-32 checksum (the source function
    carries this spelling of its name). -/
def newV1Wrtier : IVWriter :=
  ⟨1, fun p => p, crc32sum⟩

/-- Modelled from the spec: the version-2 writer appends a reserved
    16-byte trailer block after the logical payload. -/
def newV2Writer : IVWriter :=
  ⟨2, fun p => p ++ List.replicate 16 0, crc32sum⟩

/-- getVersionWriter: closed dispatch from a version tag to a writer
    strategy; an unrecognized tag panics (`none`). -/
def getVersionWriter (v : Nat) : Option IVWriter :=
  if v = 1 then some newV1Wrtier
  else if v = 2 then some newV2Writer
  else none

/-- A version-strategy reader (IVReader): what reading the bound payload
    stream to end-of-stream returns, and the checksum over the bytes
    read.  Modelled from the spec: the concrete v1/v2 readers are not
    part of the sources. -/
structure IVReader where
  readAll : List Nat → List Nat
  sum : List Nat → List Nat

/-- Modelled from the spec: the version-1 reader consumes the flat
    payload stream as-is, accumulating its running checksum. -/
def newV1Reader : IVReader := ⟨fun s => s, crc32sum⟩

/-- Modelled from the spec: the version-2 reader consumes the
    already-limited payload stream (the 16-byte trailer was excluded by
    the stream limit), accumulating its running checksum. -/
def newV2Reader : IVReader := ⟨fun s => s, crc32sum⟩

/-- getVersionReader: closed dispatch from a version tag to a reader
    strategy; an unrecognized tag panics (`none`). -/
def getVersionReader (v : Nat) : Option IVReader :=
  if v = 1 then some newV1Reader
  else if v = 2 then some newV2Reader
  else none

/-- A version-strategy chunk validator (IVValidator).  Modelled from the
    spec: the concrete v1/v2 validators are not part of the sources; each
    accumulates the chunk bytes it is fed. -/
inductive IVValidator where
  | v1 (header : SnapshotHeader) (chunks : List Nat)
  | v2 (chunks : List Nat)
deriving DecidableEq

/-- Modelled from the spec: the version-1 strategy validator is bound to
    the parsed header. -/
def newV1Validator (h : SnapshotHeader) : IVValidator := .v1 h []

/-- Modelled from the spec: the version-2 strategy validator is bound to
    the checksum accumulator named by the header. -/
def newV2Validator : IVValidator := .v2 []

/-- getVersionValidator: closed dispatch from the header's version tag to
    a validator strategy; for version 2 the checksum accumulator is
    obtained first (which panics on an unsupported checksum type), and an
    unrecognized version tag panics (`none`). -/
def getVersionValidator (h : SnapshotHeader) : Option IVValidator :=
  if h.Version = 1 then some (newV1Validator h)
  else if h.Version = 2 then
    match getChecksum h.ChecksumType with
    | none => none
    | some _ => some newV2Validator
  else none

/-- Modelled from the spec: the transport embeds the snapshot file's
    header region at the front of chunk 0; extraction follows the file
    layout (8-byte little-endian length prefix, then the serialized
    header record), failing on malformed input.  The Go implementation
    is not part of the sources. -/
def getHeaderFromFirstChunk (data : List Nat) : Option SnapshotHeader :=
  if data.length < 8 then none
  else if SnapshotHeaderSize - 8 < leUint (data.take 8) then none
  else if (data.drop 8).length < leUint (data.take 8) then none
  else SnapshotHeader.Unmarshal ((data.drop 8).take (leUint (data.take 8)))

/-- Modelled from the spec: a strategy validator incorporates each chunk
    it is fed into its accumulated state and reports acceptance for that
    chunk. -/
def IVValidator.addChunk : IVValidator → List Nat → Nat → Bool × IVValidator
  | .v1 h acc, data, _ => (true, .v1 h (acc ++ data))
  | .v2 acc, data, _ => (true, .v2 (acc ++ data))

/-- Modelled from the spec: at validation time the strategy validator
    checks the accumulated payload bytes (the bytes past the fixed header
    region, and for version 2 minus the 16-byte trailer) against the
    payload checksum declared in the header. -/
def IVValidator.validate : IVValidator → Bool
  | .v1 h acc => crc32sum (acc.drop SnapshotHeaderSize) == h.PayloadChecksum
  | .v2 acc =>
    match getHeaderFromFirstChunk acc with
    | none => false
    | some h =>
      crc32sum ((acc.drop SnapshotHeaderSize).take
        ((acc.drop SnapshotHeaderSize).length - 16)) == h.PayloadChecksum

/-- SnapshotValidator: the chunk-oriented admission state machine;
    `v = none` is the Unbound state, `v = some strat` the Bound state. -/
structure SnapshotValidator where
  v : Option IVValidator
deriving DecidableEq

/-- NewSnapshotValidator: a fresh, Unbound validator. -/
def NewSnapshotValidator : SnapshotValidator := ⟨none⟩

/-- SnapshotValidator.AddChunk, translated from the source: chunk 0
    extracts the embedded header, rejects if extraction fails or a header
    was already established, and otherwise binds the dispatched strategy
    validator (whose dispatch can panic, modelled as `none`); any later
    chunk is rejected while Unbound; accepted chunks are delegated to the
    bound strategy validator. -/
def SnapshotValidator.AddChunk (sv : SnapshotValidator) (data : List Nat) (chunkID : Nat) :
    Option (Bool × SnapshotValidator) :=
  if chunkID = 0 then
    match getHeaderFromFirstChunk data with
    | none => some (false, sv)
    | some header =>
      match sv.v with
      | some _ => some (false, sv)
      | none =>
        match getVersionValidator header with
        | none => none
        | some strat =>
          let r := strat.addChunk data chunkID
          some (r.1, ⟨some r.2⟩)
  else
    match sv.v with
    | none => some (false, sv)
    | some strat =>
      let r := strat.addChunk data chunkID
      some (r.1, ⟨some r.2⟩)

/-- SnapshotValidator.Validate, translated from the source: false while
    Unbound, otherwise the strategy validator's verdict. -/
def SnapshotValidator.Validate (sv : SnapshotValidator) : Bool :=
  match sv.v with
  | none => false
  | some strat => strat.validate

/-- The zero-filled placeholder header region written by
    NewSnapshotWriter before any payload byte. -/
def NewSnapshotWriterFile : List Nat := List.replicate SnapshotHeaderSize 0

/-- Overwriting a file in place starting at a byte offset (Seek followed
    by Write). -/
def writeAt (file : List Nat) (pos : Nat) (data : List Nat) : List Nat :=
  file.take pos ++ data ++ file.drop (pos + data.length)

/-- The header record built by SaveHeader before the header checksum is
    populated: sizes, timestamp, the strategy's finalized payload
    checksum, the default checksum type and the strategy's version. -/
def mkSaveHeader (vw : IVWriter) (payload : List Nat) (smsz sz ts : Nat) : SnapshotHeader :=
  { SessionSize := smsz
    DataStoreSize := sz
    UnreliableTime := ts
    HeaderChecksum := []
    PayloadChecksum := vw.payloadSum payload
    ChecksumType := getChecksumType
    Version := vw.version }

/-- The final serialized header record written by SaveHeader: the header
    re-serialized after the header checksum (computed over the record
    with the checksum field at its zero value) has been populated. -/
def finalHeaderRecord (vw : IVWriter) (payload : List Nat) (smsz sz ts : Nat) : List Nat :=
  SnapshotHeader.Marshal
    { mkSaveHeader vw payload smsz sz ts with
      HeaderChecksum := crc32sum (mkSaveHeader vw payload smsz sz ts).Marshal }

/-- SaveHeader, translated from the source: builds the header, computes
    the header checksum over the record with the checksum field zeroed,
    populates the field, re-serializes, panics (`none`) if the final
    record exceeds the header-region budget minus the 8-byte length
    prefix, and otherwise seeks to offset 0 and writes the length prefix
    followed by the record. -/
def SaveHeader (vw : IVWriter) (payload : List Nat) (smsz sz ts : Nat)
    (file : List Nat) : Option (List Nat) :=
  match getDefaultChecksum with
  | none => none
  | some hf =>
    let sh := mkSaveHeader vw payload smsz sz ts
    let data2 := SnapshotHeader.Marshal { sh with HeaderChecksum := hf sh.Marshal }
    if SnapshotHeaderSize - 8 < data2.length then none
    else some (writeAt file 0 (leBytes 8 data2.length ++ data2))

/-- The whole write path: NewSnapshotWriter (placeholder header region),
    Write of the payload through the dispatched strategy, Flush, and
    SaveHeader; returns the final file bytes, or `none` on a panic. -/
def writeSnapshotFile (v : Nat) (payload : List Nat) (smsz sz ts : Nat) : Option (List Nat) :=
  match getVersionWriter v with
  | none => none
  | some vw =>
    SaveHeader vw payload smsz sz ts (NewSnapshotWriterFile ++ vw.fileBytes payload)

/-- The two error classes of the read path: recoverable I/O failures
    returned to the caller, and fatal (panic) format-integrity
    violations. -/
inductive SnapErr where
  | ioErr : SnapErr
  | fatal : SnapErr
deriving DecidableEq

/-- GetHeader, translated from the source: reads the 8-byte little-endian
    length prefix (I/O error on short read), panics if it exceeds the
    header-region budget, reads and deserializes exactly that many header
    bytes (I/O error on short read, panic on a deserialization failure),
    seeks to the header-region boundary, dispatches the reader strategy
    for the header's version (panic on an unrecognized tag), and for
    version 2 limits the remaining stream to
    fileSize - SnapshotHeaderSize - 16 bytes (a signed quantity; a
    non-positive limit yields an immediately-empty stream).  Returns the
    header and the byte stream subsequent Read calls consume. -/
def GetHeader (file : List Nat) : Except SnapErr (SnapshotHeader × List Nat) :=
  if file.length < 8 then .error .ioErr
  else if SnapshotHeaderSize - 8 < leUint (file.take 8) then .error .fatal
  else if (file.drop 8).length < leUint (file.take 8) then .error .ioErr
  else
    match SnapshotHeader.Unmarshal ((file.drop 8).take (leUint (file.take 8))) with
    | none => .error .fatal
    | some r =>
      match getVersionReader r.Version with
      | none => .error .fatal
      | some _ =>
        .ok (r, if r.Version = 2 then
            (file.drop SnapshotHeaderSize).take
              (((file.length : Int) - (SnapshotHeaderSize : Int) - 16).toNat)
          else file.drop SnapshotHeaderSize)

/-- ValidatePayload, translated from the source: compares the reader
    strategy's accumulated checksum over the bytes read against the
    header's payload checksum; `false` models the panic on mismatch. -/
def ValidatePayload (streamRead : List Nat) (header : SnapshotHeader) : Bool :=
  crc32sum streamRead == header.PayloadChecksum

/-- ValidateHeader, translated from the source: zeroes the stored header
    checksum, re-serializes, hashes with the algorithm named in the
    header (panic, modelled as `false`, on an unsupported type), and
    compares against the stored checksum; `false` models the panic on
    mismatch. -/
def ValidateHeader (header : SnapshotHeader) : Bool :=
  match getChecksum header.ChecksumType with
  | none => false
  | some hf =>
    hf (SnapshotHeader.Marshal { header with HeaderChecksum := [] }) == header.HeaderChecksum

theorem take_len_append (l r : List Nat) : (l ++ r).take l.length = l := by
  induction l with
  | nil => simp
  | cons a t ih => simp [ih]

theorem drop_add_append (l r : List Nat) (k : Nat) : (l ++ r).drop (l.length + k) = r.drop k := by
  induction l with
  | nil => simp
  | cons a t ih =>
    have h : (a :: t).length + k = (t.length + k) + 1 := by simp [List.length_cons]; omega
    rw [h]
    simpa using ih

theorem drop_len_append (l r : List Nat) : (l ++ r).drop l.length = r := by
  simpa using drop_add_append l r 0

theorem take_eq_of_len (l r : List Nat) (n : Nat) (h : l.length = n) : (l ++ r).take n = l := by
  subst h; exact take_len_append l r

theorem drop_eq_of_len (l r : List Nat) (n : Nat) (h : l.length = n) : (l ++ r).drop n = r := by
  subst h; exact drop_len_append l r

theorem take_drop_swap (l : List Nat) (m n : Nat) :
    (l.take n).drop m = (l.drop m).take (n - m) := by
  induction l generalizing m n with
  | nil => simp
  | cons a t ih =>
    cases n with
    | zero => simp
    | succ n =>
      cases m with
      | zero => simp
      | succ m => simpa using ih m n

theorem leBytes_length (k n : Nat) : (leBytes k n).length = k := by
  induction k generalizing n with
  | zero => rfl
  | succ k ih => simp [leBytes, ih]

theorem mod_mul_decomp (n c : Nat) : n % (256 * c) = 256 * (n / 256 % c) + n % 256 := by
  have h1 := Nat.div_add_mod (n % (256 * c)) 256
  have h2 : n % (256 * c) / 256 = n / 256 % c := Nat.mod_mul_right_div_self n 256 c
  have h3 : n % (256 * c) % 256 = n % 256 := Nat.mod_mod_of_dvd n ⟨c, rfl⟩
  omega

theorem leUint_leBytes (k n : Nat) : leUint (leBytes k n) = n % 256 ^ k := by
  induction k generalizing n with
  | zero => simp [leBytes, leUint, Nat.mod_one]
  | succ k ih =>
    have hp : (256 : Nat) ^ (k + 1) = 256 * 256 ^ k := by ring
    rw [leBytes, leUint, ih, hp, mod_mul_decomp]
    omega

theorem leUint_leBytes8 (n : Nat) : leUint (leBytes 8 n) = n % 2 ^ 64 := by
  have h : (256 : Nat) ^ 8 = 2 ^ 64 := by norm_num
  rw [leUint_leBytes, h]

theorem leBytes_mod (k n : Nat) : leBytes k (n % 256 ^ k) = leBytes k n := by
  induction k generalizing n with
  | zero => rfl
  | succ k ih =>
    have hp : (256 : Nat) ^ (k + 1) = 256 * 256 ^ k := by ring
    have h1 : n % 256 ^ (k + 1) % 256 = n % 256 := by
      rw [hp]; exact Nat.mod_mod_of_dvd n ⟨256 ^ k, rfl⟩
    have h2 : n % 256 ^ (k + 1) / 256 = n / 256 % 256 ^ k := by
      rw [hp]; exact Nat.mod_mul_right_div_self n 256 (256 ^ k)
    rw [leBytes, leBytes, h1, h2, ih]

theorem leBytes8_mod64 (n : Nat) : leBytes 8 (n % 2 ^ 64) = leBytes 8 n := by
  have h : (2 : Nat) ^ 64 = 256 ^ 8 := by norm_num
  rw [h]
  exact leBytes_mod 8 n

theorem readU64_append (n : Nat) (rest : List Nat) :
    readU64 (leBytes 8 n ++ rest) = some (n % 2 ^ 64, rest) := by
  have hlen : (leBytes 8 n).length = 8 := leBytes_length 8 n
  have h1 : (leBytes 8 n ++ rest).take 8 = leBytes 8 n := take_eq_of_len _ _ _ hlen
  have h2 : (leBytes 8 n ++ rest).drop 8 = rest := drop_eq_of_len _ _ _ hlen
  have h3 : 8 ≤ (leBytes 8 n ++ rest).length := by
    simp [List.length_append, hlen]
  rw [readU64, if_pos h3, h1, h2, leUint_leBytes8]

theorem readBytes_append (bs rest : List Nat) :
    readBytes bs.length (bs ++ rest) = some (bs, rest) := by
  have h3 : bs.length ≤ (bs ++ rest).length := by
    simp [List.length_append]
  simp [readBytes, h3, take_len_append, drop_len_append]

theorem readBytes_exact (bs : List Nat) : readBytes bs.length bs = some (bs, []) := by
  simpa using readBytes_append bs []

theorem unmarshal_marshal (h : SnapshotHeader)
    (hpc : h.PayloadChecksum.length < 2 ^ 64) (hhc : h.HeaderChecksum.length < 2 ^ 64) :
    SnapshotHeader.Unmarshal h.Marshal = some (canonHeader h) := by
  have hpc' : h.PayloadChecksum.length % 2 ^ 64 = h.PayloadChecksum.length :=
    Nat.mod_eq_of_lt hpc
  have hhc' : h.HeaderChecksum.length % 2 ^ 64 = h.HeaderChecksum.length :=
    Nat.mod_eq_of_lt hhc
  simp only [SnapshotHeader.Unmarshal, SnapshotHeader.Marshal, readU64_append,
    Option.some_bind, hpc', hhc', readBytes_append, readBytes_exact, canonHeader,
    if_pos, reduceIte]

theorem crc32sum_length (d : List Nat) : (crc32sum d).length = 4 := rfl

theorem marshal_length (h : SnapshotHeader) :
    h.Marshal.length = 56 + h.PayloadChecksum.length + h.HeaderChecksum.length := by
  simp only [SnapshotHeader.Marshal, List.length_append, leBytes_length]
  omega

theorem marshal_canonHeader (h : SnapshotHeader) :
    (canonHeader h).Marshal = h.Marshal := by
  cases h with
  | mk ss ds ut hc pc ct vr =>
    simp only [SnapshotHeader.Marshal, canonHeader]
    rw [leBytes8_mod64, leBytes8_mod64, leBytes8_mod64, leBytes8_mod64, leBytes8_mod64]

theorem canonHeader_set_hc (h : SnapshotHeader) (c : List Nat) :
    { canonHeader h with HeaderChecksum := c } = canonHeader { h with HeaderChecksum := c } := rfl

theorem validateHeader_crc (h : SnapshotHeader) (hct : h.ChecksumType = CRC32IEEE) :
    ValidateHeader h =
      (crc32sum (SnapshotHeader.Marshal { h with HeaderChecksum := [] }) == h.HeaderChecksum) := by
  unfold ValidateHeader
  rw [hct]
  rfl

theorem mkSaveHeader_set_hc_nil (vw : IVWriter) (payload : List Nat) (smsz sz ts : Nat)
    (c : List Nat) :
    { (mkSaveHeader vw payload smsz sz ts : SnapshotHeader) with HeaderChecksum := ([] : List Nat) } =
      mkSaveHeader vw payload smsz sz ts := rfl

theorem validateHeader_mk (vw : IVWriter) (payload : List Nat) (smsz sz ts : Nat) :
    ValidateHeader (canonHeader { mkSaveHeader vw payload smsz sz ts with
      HeaderChecksum := crc32sum (mkSaveHeader vw payload smsz sz ts).Marshal }) = true := by
  have hct : (canonHeader { mkSaveHeader vw payload smsz sz ts with
      HeaderChecksum := crc32sum (mkSaveHeader vw payload smsz sz ts).Marshal }).ChecksumType =
      CRC32IEEE := by
    simp [canonHeader, mkSaveHeader, getChecksumType, CRC32IEEE]
  rw [validateHeader_crc _ hct, canonHeader_set_hc]
  have hset : ({ ({ mkSaveHeader vw payload smsz sz ts with
      HeaderChecksum := crc32sum (mkSaveHeader vw payload smsz sz ts).Marshal } : SnapshotHeader)
      with HeaderChecksum := ([] : List Nat) } : SnapshotHeader) =
      mkSaveHeader vw payload smsz sz ts := rfl
  rw [hset, marshal_canonHeader]
  simp [canonHeader]

theorem saveHeader_eq (vw : IVWriter) (payload : List Nat) (smsz sz ts : Nat) (file : List Nat) :
    SaveHeader vw payload smsz sz ts file =
      if SnapshotHeaderSize - 8 < (finalHeaderRecord vw payload smsz sz ts).length then none
      else some (leBytes 8 (finalHeaderRecord vw payload smsz sz ts).length ++
        (finalHeaderRecord vw payload smsz sz ts ++
          file.drop (8 + (finalHeaderRecord vw payload smsz sz ts).length))) := by
  have hd : getDefaultChecksum = some crc32sum := rfl
  rw [SaveHeader, hd]
  simp only [finalHeaderRecord, writeAt, List.take_zero, List.nil_append, Nat.zero_add,
    List.length_append, leBytes_length, List.append_assoc]

theorem getHeader_written_v1 (D tail : List Nat) (h : SnapshotHeader) (rd : IVReader)
    (hD : D.length ≤ SnapshotHeaderSize - 8)
    (hum : SnapshotHeader.Unmarshal D = some h)
    (hrd : getVersionReader h.Version = some rd)
    (hv : h.Version ≠ 2) :
    GetHeader (leBytes 8 D.length ++
        (D ++ (List.replicate (SnapshotHeaderSize - 8 - D.length) 0 ++ tail))) =
      .ok (h, tail) := by
  have hD' : D.length ≤ 1016 := by simpa [SnapshotHeaderSize] using hD
  have h8 : (leBytes 8 D.length).length = 8 := leBytes_length 8 D.length
  have hrestlen : (D ++ (List.replicate (SnapshotHeaderSize - 8 - D.length) 0 ++ tail)).length =
      1016 + tail.length := by
    simp only [List.length_append, List.length_replicate, SnapshotHeaderSize]
    omega
  have hflen : (leBytes 8 D.length ++
      (D ++ (List.replicate (SnapshotHeaderSize - 8 - D.length) 0 ++ tail))).length =
      1024 + tail.length := by
    rw [List.length_append, h8, hrestlen]
    omega
  have htake8 : (leBytes 8 D.length ++
      (D ++ (List.replicate (SnapshotHeaderSize - 8 - D.length) 0 ++ tail))).take 8 =
      leBytes 8 D.length := take_eq_of_len _ _ _ h8
  have hdrop8 : (leBytes 8 D.length ++
      (D ++ (List.replicate (SnapshotHeaderSize - 8 - D.length) 0 ++ tail))).drop 8 =
      D ++ (List.replicate (SnapshotHeaderSize - 8 - D.length) 0 ++ tail) :=
    drop_eq_of_len _ _ _ h8
  have hle : leUint (leBytes 8 D.length) = D.length := by
    rw [leUint_leBytes8]
    exact Nat.mod_eq_of_lt (lt_of_le_of_lt hD' (by norm_num))
  have htakeD : (D ++ (List.replicate (SnapshotHeaderSize - 8 - D.length) 0 ++ tail)).take
      D.length = D := take_len_append D _
  have hdropSHS : (leBytes 8 D.length ++
      (D ++ (List.replicate (SnapshotHeaderSize - 8 - D.length) 0 ++ tail))).drop
      SnapshotHeaderSize = tail := by
    have hlen2 : (leBytes 8 D.length ++
        (D ++ List.replicate (SnapshotHeaderSize - 8 - D.length) 0)).length =
        SnapshotHeaderSize := by
      simp only [List.length_append, h8, List.length_replicate, SnapshotHeaderSize]
      omega
    have hassoc : leBytes 8 D.length ++
        (D ++ (List.replicate (SnapshotHeaderSize - 8 - D.length) 0 ++ tail)) =
        (leBytes 8 D.length ++ (D ++ List.replicate (SnapshotHeaderSize - 8 - D.length) 0)) ++
          tail := by
      simp [List.append_assoc]
    rw [hassoc]
    exact drop_eq_of_len _ _ _ hlen2
  rw [GetHeader]
  rw [if_neg (by rw [hflen]; omega)]
  rw [htake8, hle, hdrop8]
  rw [if_neg (by simp only [SnapshotHeaderSize]; omega)]
  rw [if_neg (by rw [hrestlen]; omega)]
  rw [htakeD, hum]
  simp only [hrd, hdropSHS, if_neg hv]

theorem getHeader_written_v2 (D tail : List Nat) (h : SnapshotHeader) (rd : IVReader)
    (hD : D.length ≤ SnapshotHeaderSize - 8)
    (hum : SnapshotHeader.Unmarshal D = some h)
    (hrd : getVersionReader h.Version = some rd)
    (hv : h.Version = 2) :
    GetHeader (leBytes 8 D.length ++
        (D ++ (List.replicate (SnapshotHeaderSize - 8 - D.length) 0 ++ tail))) =
      .ok (h, tail.take (tail.length - 16)) := by
  have hD' : D.length ≤ 1016 := by simpa [SnapshotHeaderSize] using hD
  have h8 : (leBytes 8 D.length).length = 8 := leBytes_length 8 D.length
  have hrestlen : (D ++ (List.replicate (SnapshotHeaderSize - 8 - D.length) 0 ++ tail)).length =
      1016 + tail.length := by
    simp only [List.length_append, List.length_replicate, SnapshotHeaderSize]
    omega
  have hflen : (leBytes 8 D.length ++
      (D ++ (List.replicate (SnapshotHeaderSize - 8 - D.length) 0 ++ tail))).length =
      1024 + tail.length := by
    rw [List.length_append, h8, hrestlen]
    omega
  have htake8 : (leBytes 8 D.length ++
      (D ++ (List.replicate (SnapshotHeaderSize - 8 - D.length) 0 ++ tail))).take 8 =
      leBytes 8 D.length := take_eq_of_len _ _ _ h8
  have hdrop8 : (leBytes 8 D.length ++
      (D ++ (List.replicate (SnapshotHeaderSize - 8 - D.length) 0 ++ tail))).drop 8 =
      D ++ (List.replicate (SnapshotHeaderSize - 8 - D.length) 0 ++ tail) :=
    drop_eq_of_len _ _ _ h8
  have hle : leUint (leBytes 8 D.length) = D.length := by
    rw [leUint_leBytes8]
    exact Nat.mod_eq_of_lt (lt_of_le_of_lt hD' (by norm_num))
  have htakeD : (D ++ (List.replicate (SnapshotHeaderSize - 8 - D.length) 0 ++ tail)).take
      D.length = D := take_len_append D _
  have hdropSHS : (leBytes 8 D.length ++
      (D ++ (List.replicate (SnapshotHeaderSize - 8 - D.length) 0 ++ tail))).drop
      SnapshotHeaderSize = tail := by
    have hlen2 : (leBytes 8 D.length ++
        (D ++ List.replicate (SnapshotHeaderSize - 8 - D.length) 0)).length =
        SnapshotHeaderSize := by
      simp only [List.length_append, h8, List.length_replicate, SnapshotHeaderSize]
      omega
    have hassoc : leBytes 8 D.length ++
        (D ++ (List.replicate (SnapshotHeaderSize - 8 - D.length) 0 ++ tail)) =
        (leBytes 8 D.length ++ (D ++ List.replicate (SnapshotHeaderSize - 8 - D.length) 0)) ++
          tail := by
      simp [List.append_assoc]
    rw [hassoc]
    exact drop_eq_of_len _ _ _ hlen2
  rw [GetHeader]
  rw [if_neg (by rw [hflen]; omega)]
  rw [htake8, hle, hdrop8]
  rw [if_neg (by simp only [SnapshotHeaderSize]; omega)]
  rw [if_neg (by rw [hrestlen]; omega)]
  rw [htakeD, hum]
  simp only [hrd, hdropSHS, if_pos hv, hflen]
  have hT : (((1024 + tail.length : Nat) : Int) - (SnapshotHeaderSize : Int) - 16).toNat =
      tail.length - 16 := by
    simp only [SnapshotHeaderSize]
    omega
  rw [hT]

theorem getHeader_ok_spec (file : List Nat) (h : SnapshotHeader) (s : List Nat)
    (hok : GetHeader file = .ok (h, s)) :
    leUint (file.take 8) ≤ SnapshotHeaderSize - 8 ∧
    SnapshotHeader.Unmarshal ((file.drop 8).take (leUint (file.take 8))) = some h ∧
    (h.Version = 2 → s = (file.drop SnapshotHeaderSize).take
      (((file.length : Int) - (SnapshotHeaderSize : Int) - 16).toNat)) ∧
    (h.Version ≠ 2 → s = file.drop SnapshotHeaderSize) := by
  rw [GetHeader] at hok
  by_cases c1 : file.length < 8
  · rw [if_pos c1] at hok
    simp at hok
  rw [if_neg c1] at hok
  by_cases c2 : SnapshotHeaderSize - 8 < leUint (file.take 8)
  · rw [if_pos c2] at hok
    simp at hok
  rw [if_neg c2] at hok
  by_cases c3 : (file.drop 8).length < leUint (file.take 8)
  · rw [if_pos c3] at hok
    simp at hok
  rw [if_neg c3] at hok
  cases hum : SnapshotHeader.Unmarshal ((file.drop 8).take (leUint (file.take 8))) with
  | none =>
    rw [hum] at hok
    simp at hok
  | some r =>
    rw [hum] at hok
    cases hrd : getVersionReader r.Version with
    | none =>
      simp only [hrd] at hok
      simp at hok
    | some rd =>
      simp only [hrd] at hok
      simp only [Except.ok.injEq, Prod.mk.injEq] at hok
      obtain ⟨rfl, hs⟩ := hok
      refine ⟨by omega, rfl, ?_, ?_⟩
      · intro hv
        rw [← hs, if_pos hv]
      · intro hv
        rw [← hs, if_neg hv]

/-- C4: GetHeader reads the 8-byte little-endian length prefix and panics
    when it exceeds the header-region budget; on success it deserializes
    exactly that many header bytes and hands back the stream positioned
    at the fixed header-region boundary (the padding is never parsed). -/
theorem c4_get_header (file : List Nat) :
    (8 ≤ file.length → SnapshotHeaderSize - 8 < leUint (file.take 8) →
      GetHeader file = .error .fatal) ∧
    (∀ h s, GetHeader file = .ok (h, s) →
      leUint (file.take 8) ≤ SnapshotHeaderSize - 8 ∧
      SnapshotHeader.Unmarshal ((file.drop 8).take (leUint (file.take 8))) = some h ∧
      (h.Version = 2 → s = (file.drop SnapshotHeaderSize).take
        (((file.length : Int) - (SnapshotHeaderSize : Int) - 16).toNat)) ∧
      (h.Version ≠ 2 → s = file.drop SnapshotHeaderSize)) := by
  constructor
  · intro h8 hbig
    rw [GetHeader, if_neg (by omega), if_pos hbig]
  · intro h s hok
    exact getHeader_ok_spec file h s hok

theorem c4_get_header_witness :
    GetHeader [0, 0, 0, 0, 0, 0, 0, 1] = .error .fatal ∧
    leUint ((leBytes 8 56 ++ (⟨1, 2, 3, [], [], 0, 1⟩ : SnapshotHeader).Marshal).take 8) ≤
      SnapshotHeaderSize - 8 :=
  ⟨(c4_get_header [0, 0, 0, 0, 0, 0, 0, 1]).1 (by decide) (by decide),
   ((c4_get_header (leBytes 8 56 ++ (⟨1, 2, 3, [], [], 0, 1⟩ : SnapshotHeader).Marshal)).2
      ⟨1, 2, 3, [], [], 0, 1⟩ [] rfl).1⟩

/-- C5: for a version-2 header GetHeader limits the payload stream to
    fileSize - SnapshotHeaderSize - 16 bytes drawn from the region
    between the header-region boundary and the trailing 16 bytes, while
    for any other accepted version the payload extends to end of file. -/
theorem c5_v2_limit (file : List Nat) (h : SnapshotHeader) (s : List Nat)
    (hok : GetHeader file = .ok (h, s)) :
    (h.Version = 2 →
      s.length ≤ (((file.length : Int) - (SnapshotHeaderSize : Int) - 16).toNat) ∧
      s = (file.take (file.length - 16)).drop SnapshotHeaderSize) ∧
    (h.Version ≠ 2 → s = file.drop SnapshotHeaderSize) := by
  obtain ⟨-, -, hv2, hnv2⟩ := getHeader_ok_spec file h s hok
  refine ⟨?_, hnv2⟩
  intro hv
  have hs := hv2 hv
  have hT : (((file.length : Int) - (SnapshotHeaderSize : Int) - 16).toNat) =
      file.length - 16 - SnapshotHeaderSize := by
    simp only [SnapshotHeaderSize]
    omega
  constructor
  · rw [hs, List.length_take]
    exact Nat.min_le_left _ _
  · rw [take_drop_swap, hs, hT]

theorem c5_v2_limit_witness :
    ([] : List Nat).length ≤
      ((((leBytes 8 56 ++ (⟨0, 0, 0, [], [], 0, 2⟩ : SnapshotHeader).Marshal).length : Int) -
        (SnapshotHeaderSize : Int) - 16).toNat) ∧
    ([] : List Nat) =
      ((leBytes 8 56 ++ (⟨0, 0, 0, [], [], 0, 2⟩ : SnapshotHeader).Marshal).take
        ((leBytes 8 56 ++ (⟨0, 0, 0, [], [], 0, 2⟩ : SnapshotHeader).Marshal).length - 16)).drop
        SnapshotHeaderSize :=
  (c5_v2_limit (leBytes 8 56 ++ (⟨0, 0, 0, [], [], 0, 2⟩ : SnapshotHeader).Marshal)
    ⟨0, 0, 0, [], [], 0, 2⟩ [] rfl).1 rfl

/-- C6: the checksum registry and the version dispatch are closed: any
    checksum type other than CRC32-IEEE (the reserved HIGHWAY identifier
    included) panics, and any version tag other than 1 or 2 panics in the
    writer, reader and validator dispatch alike; neither mapping has a
    default fallback. -/
theorem c6_closed_dispatch :
    (∀ t, t ≠ CRC32IEEE → getChecksum t = none) ∧
    getChecksum HIGHWAY = none ∧
    (∀ v, v ≠ 1 → v ≠ 2 → getVersionWriter v = none ∧ getVersionReader v = none) ∧
    (∀ h : SnapshotHeader, h.Version ≠ 1 → h.Version ≠ 2 → getVersionValidator h = none) := by
  refine ⟨?_, rfl, ?_, ?_⟩
  · intro t ht
    simp [getChecksum, ht]
  · intro v h1 h2
    constructor
    · simp [getVersionWriter, h1, h2]
    · simp [getVersionReader, h1, h2]
  · intro h h1 h2
    simp [getVersionValidator, h1, h2]

theorem c6_closed_dispatch_witness :
    getChecksum 7 = none ∧ getVersionWriter 3 = none ∧ getVersionReader 3 = none ∧
    getVersionValidator ⟨0, 0, 0, [], [], 0, 9⟩ = none :=
  ⟨c6_closed_dispatch.1 7 (by decide),
   (c6_closed_dispatch.2.2.1 3 (by decide) (by decide)).1,
   (c6_closed_dispatch.2.2.1 3 (by decide) (by decide)).2,
   c6_closed_dispatch.2.2.2 ⟨0, 0, 0, [], [], 0, 9⟩ (by decide) (by decide)⟩

/-- C7: while a SnapshotValidator is still Unbound, AddChunk with any
    chunkID greater than 0 is rejected without instantiating a strategy
    validator or leaving the Unbound state, so Validate still returns
    false. -/
theorem c7_unbound_reject (sv : SnapshotValidator) (data : List Nat) (cid : Nat)
    (hun : sv.v = none) (hcid : 0 < cid) :
    SnapshotValidator.AddChunk sv data cid = some (false, sv) ∧
    SnapshotValidator.Validate sv = false := by
  constructor
  · rw [SnapshotValidator.AddChunk, if_neg (by omega), hun]
  · rw [SnapshotValidator.Validate, hun]

theorem c7_unbound_reject_witness :
    SnapshotValidator.AddChunk NewSnapshotValidator [1, 2] 3 =
      some (false, NewSnapshotValidator) ∧
    SnapshotValidator.Validate NewSnapshotValidator = false :=
  c7_unbound_reject NewSnapshotValidator [1, 2] 3 rfl (by decide)

/-- C8: once a SnapshotValidator is Bound, any AddChunk call with
    chunkID 0 is rejected regardless of the chunk bytes, so a header can
    be established at most once per validator instance. -/
theorem c8_duplicate_header_reject (sv : SnapshotValidator) (strat : IVValidator)
    (hb : sv.v = some strat) (data : List Nat) :
    SnapshotValidator.AddChunk sv data 0 = some (false, sv) := by
  rw [SnapshotValidator.AddChunk, if_pos rfl]
  cases hh : getHeaderFromFirstChunk data with
  | none => rfl
  | some header => rw [hb]

theorem c8_duplicate_header_reject_witness :
    SnapshotValidator.AddChunk ⟨some (IVValidator.v2 [])⟩ [9] 0 =
      some (false, ⟨some (IVValidator.v2 [])⟩) :=
  c8_duplicate_header_reject ⟨some (IVValidator.v2 [])⟩ (IVValidator.v2 []) rfl [9]

/-- C9: the binding of a SnapshotValidator changes only through the
    single Unbound-to-Bound transition on an accepted chunk 0: every
    state-check rejection (failed header extraction while Unbound,
    chunkID > 0 while Unbound, chunkID = 0 while Bound) leaves the
    validator exactly as it was, and once Bound the strategy validator is
    only ever advanced by delegation, never replaced or cleared. -/
theorem c9_binding_stable (sv : SnapshotValidator) (data : List Nat) (cid : Nat) :
    (sv.v = none → cid = 0 → getHeaderFromFirstChunk data = none →
      SnapshotValidator.AddChunk sv data cid = some (false, sv)) ∧
    (sv.v = none → 0 < cid →
      SnapshotValidator.AddChunk sv data cid = some (false, sv)) ∧
    (∀ strat, sv.v = some strat → cid = 0 →
      SnapshotValidator.AddChunk sv data cid = some (false, sv)) ∧
    (∀ strat b sv2, sv.v = some strat →
      SnapshotValidator.AddChunk sv data cid = some (b, sv2) →
      sv2.v = some (if cid = 0 then strat else (strat.addChunk data cid).2)) := by
  refine ⟨?_, ?_, ?_, ?_⟩
  · intro hun h0 hh
    rw [SnapshotValidator.AddChunk, if_pos h0, hh]
  · intro hun hcid
    rw [SnapshotValidator.AddChunk, if_neg (by omega), hun]
  · intro strat hb h0
    rw [SnapshotValidator.AddChunk, if_pos h0]
    cases hh : getHeaderFromFirstChunk data with
    | none => rfl
    | some header => rw [hb]
  · intro strat b sv2 hb hadd
    rw [SnapshotValidator.AddChunk] at hadd
    by_cases h0 : cid = 0
    · rw [if_pos h0] at hadd
      cases hh : getHeaderFromFirstChunk data with
      | none =>
        rw [hh] at hadd
        simp only [Option.some.injEq, Prod.mk.injEq] at hadd
        obtain ⟨-, h2⟩ := hadd
        rw [if_pos h0, ← h2, hb]
      | some header =>
        rw [hh] at hadd
        simp only [hb] at hadd
        simp only [Option.some.injEq, Prod.mk.injEq] at hadd
        obtain ⟨-, h2⟩ := hadd
        rw [if_pos h0, ← h2, hb]
    · rw [if_neg h0] at hadd
      simp only [hb] at hadd
      simp only [Option.some.injEq, Prod.mk.injEq] at hadd
      obtain ⟨-, h2⟩ := hadd
      rw [if_neg h0, ← h2]

theorem c9_binding_stable_witness :
    SnapshotValidator.AddChunk ⟨none⟩ [4] 1 = some (false, (⟨none⟩ : SnapshotValidator)) :=
  (c9_binding_stable ⟨none⟩ [4] 1).2.1 rfl (by decide)

/-- C10: a file whose header declares version 2 but whose total size is
    below SnapshotHeaderSize + 16 still gets its header returned by
    GetHeader; the computed payload limit clamps to an empty stream, so
    every Read reports end-of-stream at once, and the truncation can only
    surface as a payload-checksum mismatch in ValidatePayload. -/
theorem c10_truncated_v2 (file : List Nat) (hdr : SnapshotHeader)
    (h8 : 8 ≤ file.length)
    (hsz : leUint (file.take 8) ≤ SnapshotHeaderSize - 8)
    (hdata : leUint (file.take 8) ≤ (file.drop 8).length)
    (hum : SnapshotHeader.Unmarshal ((file.drop 8).take (leUint (file.take 8))) = some hdr)
    (hv : hdr.Version = 2)
    (hshort : file.length < SnapshotHeaderSize + 16) :
    GetHeader file = .ok (hdr, []) ∧
    (ValidatePayload [] hdr = true ↔ crc32sum [] = hdr.PayloadChecksum) := by
  constructor
  · rw [GetHeader, if_neg (by omega), if_neg (by omega), if_neg (by omega)]
    rw [hum]
    have hrd : getVersionReader hdr.Version = some newV2Reader := by
      rw [hv]
      rfl
    simp only [hrd, if_pos hv]
    have hT : (((file.length : Int) - (SnapshotHeaderSize : Int) - 16).toNat) = 0 := by
      simp only [SnapshotHeaderSize] at hshort ⊢
      omega
    rw [hT, List.take_zero]
  · rw [ValidatePayload]
    exact beq_iff_eq

theorem c10_truncated_v2_witness :
    GetHeader (leBytes 8 60 ++ (⟨0, 0, 0, [], [7, 7, 7, 7], 0, 2⟩ : SnapshotHeader).Marshal) =
      .ok (⟨0, 0, 0, [], [7, 7, 7, 7], 0, 2⟩, []) ∧
    (ValidatePayload [] ⟨0, 0, 0, [], [7, 7, 7, 7], 0, 2⟩ = true ↔
      crc32sum [] = (⟨0, 0, 0, [], [7, 7, 7, 7], 0, 2⟩ : SnapshotHeader).PayloadChecksum) :=
  c10_truncated_v2 (leBytes 8 60 ++ (⟨0, 0, 0, [], [7, 7, 7, 7], 0, 2⟩ : SnapshotHeader).Marshal)
    ⟨0, 0, 0, [], [7, 7, 7, 7], 0, 2⟩ (by decide) (by decide) (by decide) rfl rfl (by decide)

/-- C3: SaveHeader panics, before touching the file, exactly when the
    final serialized header record exceeds SnapshotHeaderSize minus the
    8-byte length prefix; on success the full record is written after its
    length prefix, never truncated. -/
theorem c3_oversized_header (vw : IVWriter) (payload : List Nat) (smsz sz ts : Nat)
    (file : List Nat) :
    (SnapshotHeaderSize - 8 < (finalHeaderRecord vw payload smsz sz ts).length →
      SaveHeader vw payload smsz sz ts file = none) ∧
    (∀ file2, SaveHeader vw payload smsz sz ts file = some file2 →
      (finalHeaderRecord vw payload smsz sz ts).length ≤ SnapshotHeaderSize - 8 ∧
      file2 = leBytes 8 (finalHeaderRecord vw payload smsz sz ts).length ++
        (finalHeaderRecord vw payload smsz sz ts ++
          file.drop (8 + (finalHeaderRecord vw payload smsz sz ts).length))) := by
  constructor
  · intro hbig
    rw [saveHeader_eq, if_pos hbig]
  · intro file2 hs
    rw [saveHeader_eq] at hs
    by_cases hbig : SnapshotHeaderSize - 8 < (finalHeaderRecord vw payload smsz sz ts).length
    · rw [if_pos hbig] at hs
      simp at hs
    · rw [if_neg hbig] at hs
      simp only [Option.some.injEq] at hs
      exact ⟨by omega, hs.symm⟩

set_option maxRecDepth 100000 in
theorem c3_oversized_header_witness :
    SaveHeader ⟨1, fun p => p, fun _ => List.replicate 1020 0⟩ [] 0 0 0 [] = none :=
  (c3_oversized_header ⟨1, fun p => p, fun _ => List.replicate 1020 0⟩ [] 0 0 0 []).1 (by decide)

/-- C2: the header record SaveHeader produces carries a header checksum
    computed over the record with the checksum field at its zero value;
    reading the record back, ValidateHeader re-derives the same checksum
    and succeeds, and any other stored checksum makes it fail fatally. -/
theorem c2_header_checksum (vw : IVWriter) (payload : List Nat) (smsz sz ts : Nat)
    (file : List Nat) (hok : (SaveHeader vw payload smsz sz ts file).isSome = true) :
    ∃ file2 h, SaveHeader vw payload smsz sz ts file = some file2 ∧
      SnapshotHeader.Unmarshal ((file2.drop 8).take (leUint (file2.take 8))) = some h ∧
      ValidateHeader h = true ∧
      ∀ c, c ≠ h.HeaderChecksum → ValidateHeader { h with HeaderChecksum := c } = false := by
  rw [saveHeader_eq] at hok
  by_cases hbig : SnapshotHeaderSize - 8 < (finalHeaderRecord vw payload smsz sz ts).length
  · rw [if_pos hbig] at hok
    simp at hok
  · clear hok
    have hDlen : (finalHeaderRecord vw payload smsz sz ts).length ≤ 1016 := by
      have := not_lt.mp hbig
      simpa [SnapshotHeaderSize] using this
    refine ⟨leBytes 8 (finalHeaderRecord vw payload smsz sz ts).length ++
        (finalHeaderRecord vw payload smsz sz ts ++
          file.drop (8 + (finalHeaderRecord vw payload smsz sz ts).length)),
      canonHeader { mkSaveHeader vw payload smsz sz ts with
        HeaderChecksum := crc32sum (mkSaveHeader vw payload smsz sz ts).Marshal },
      by rw [saveHeader_eq, if_neg hbig], ?_, ?_, ?_⟩
    · have h8 : (leBytes 8 (finalHeaderRecord vw payload smsz sz ts).length).length = 8 :=
        leBytes_length 8 _
      rw [take_eq_of_len _ _ 8 h8, drop_eq_of_len _ _ 8 h8]
      have hle : leUint (leBytes 8 (finalHeaderRecord vw payload smsz sz ts).length) =
          (finalHeaderRecord vw payload smsz sz ts).length := by
        rw [leUint_leBytes8]
        exact Nat.mod_eq_of_lt (lt_of_le_of_lt hDlen (by norm_num))
      rw [hle, take_len_append]
      rw [finalHeaderRecord]
      have hml := marshal_length { mkSaveHeader vw payload smsz sz ts with
        HeaderChecksum := crc32sum (mkSaveHeader vw payload smsz sz ts).Marshal }
      rw [finalHeaderRecord, hml] at hDlen
      apply unmarshal_marshal
      · exact lt_of_le_of_lt (by omega) (by norm_num : (1016 : Nat) < 2 ^ 64)
      · exact lt_of_le_of_lt (by omega) (by norm_num : (1016 : Nat) < 2 ^ 64)
    · exact validateHeader_mk vw payload smsz sz ts
    · intro c hc
      have hct : ({ canonHeader { mkSaveHeader vw payload smsz sz ts with
          HeaderChecksum := crc32sum (mkSaveHeader vw payload smsz sz ts).Marshal } with
          HeaderChecksum := c } : SnapshotHeader).ChecksumType = CRC32IEEE := by
        simp [canonHeader, mkSaveHeader, getChecksumType, CRC32IEEE]
      rw [validateHeader_crc _ hct]
      have hset : ({ ({ canonHeader { mkSaveHeader vw payload smsz sz ts with
          HeaderChecksum := crc32sum (mkSaveHeader vw payload smsz sz ts).Marshal } with
          HeaderChecksum := c } : SnapshotHeader) with HeaderChecksum := ([] : List Nat) } :
          SnapshotHeader) = canonHeader (mkSaveHeader vw payload smsz sz ts) := rfl
      rw [hset, marshal_canonHeader]
      exact beq_eq_false_iff_ne.mpr fun heq => hc heq.symm

set_option maxRecDepth 100000 in
theorem c2_header_checksum_witness :
    ∃ file2 h, SaveHeader newV1Wrtier [1, 2] 0 0 0 [] = some file2 ∧
      SnapshotHeader.Unmarshal ((file2.drop 8).take (leUint (file2.take 8))) = some h ∧
      ValidateHeader h = true ∧
      ∀ c, c ≠ h.HeaderChecksum → ValidateHeader { h with HeaderChecksum := c } = false :=
  c2_header_checksum newV1Wrtier [1, 2] 0 0 0 [] (by decide)

theorem writeSnapshot_shape (vw : IVWriter) (P : List Nat) (smsz sz ts : Nat)
    (hlen : (finalHeaderRecord vw P smsz sz ts).length ≤ SnapshotHeaderSize - 8) :
    SaveHeader vw P smsz sz ts (NewSnapshotWriterFile ++ vw.fileBytes P) =
      some (leBytes 8 (finalHeaderRecord vw P smsz sz ts).length ++
        (finalHeaderRecord vw P smsz sz ts ++
          (List.replicate (SnapshotHeaderSize - 8 -
            (finalHeaderRecord vw P smsz sz ts).length) 0 ++ vw.fileBytes P))) := by
  rw [saveHeader_eq, if_neg (by omega)]
  refine congrArg (fun t => some (leBytes 8 (finalHeaderRecord vw P smsz sz ts).length ++
    (finalHeaderRecord vw P smsz sz ts ++ t))) ?_
  have hsplit : NewSnapshotWriterFile =
      List.replicate (8 + (finalHeaderRecord vw P smsz sz ts).length) (0 : Nat) ++
        List.replicate (SnapshotHeaderSize - 8 -
          (finalHeaderRecord vw P smsz sz ts).length) 0 := by
    rw [NewSnapshotWriterFile, ← List.replicate_add]
    refine congrArg (fun n => List.replicate n (0 : Nat)) ?_
    have hn : (finalHeaderRecord vw P smsz sz ts).length ≤ 1016 := by
      simpa [SnapshotHeaderSize] using hlen
    simp only [SnapshotHeaderSize]
    omega
  rw [hsplit, List.append_assoc]
  exact drop_eq_of_len _ _ _ (by simp [List.length_replicate])

theorem c1_core_v1 (P : List Nat) (smsz sz ts : Nat) :
    ∃ file h, writeSnapshotFile 1 P smsz sz ts = some file ∧
      GetHeader file = .ok (h, P) ∧
      ValidatePayload P h = true ∧ ValidateHeader h = true := by
  have hDlen : (finalHeaderRecord newV1Wrtier P smsz sz ts).length = 64 := by
    rw [finalHeaderRecord, marshal_length]
    simp [mkSaveHeader, newV1Wrtier, crc32sum_length]
  have hle : (finalHeaderRecord newV1Wrtier P smsz sz ts).length ≤ SnapshotHeaderSize - 8 := by
    rw [hDlen]
    simp [SnapshotHeaderSize]
  have hw := writeSnapshot_shape newV1Wrtier P smsz sz ts hle
  have hfb : newV1Wrtier.fileBytes P = P := rfl
  rw [hfb] at hw
  have hum : SnapshotHeader.Unmarshal (finalHeaderRecord newV1Wrtier P smsz sz ts) =
      some (canonHeader { mkSaveHeader newV1Wrtier P smsz sz ts with
        HeaderChecksum := crc32sum (mkSaveHeader newV1Wrtier P smsz sz ts).Marshal }) := by
    rw [finalHeaderRecord]
    apply unmarshal_marshal
    · show (crc32sum P).length < 2 ^ 64
      rw [crc32sum_length]
      norm_num
    · show (crc32sum (mkSaveHeader newV1Wrtier P smsz sz ts).Marshal).length < 2 ^ 64
      rw [crc32sum_length]
      norm_num
  have hver : (canonHeader { mkSaveHeader newV1Wrtier P smsz sz ts with
      HeaderChecksum := crc32sum (mkSaveHeader newV1Wrtier P smsz sz ts).Marshal }).Version =
      1 := by
    simp [canonHeader, mkSaveHeader, newV1Wrtier]
  have hrd : getVersionReader (canonHeader { mkSaveHeader newV1Wrtier P smsz sz ts with
      HeaderChecksum := crc32sum (mkSaveHeader newV1Wrtier P smsz sz ts).Marshal }).Version =
      some newV1Reader := by
    rw [hver]
    rfl
  have hget := getHeader_written_v1 (finalHeaderRecord newV1Wrtier P smsz sz ts) P _
    newV1Reader hle hum hrd (by rw [hver]; norm_num)
  refine ⟨_, _, ?_, hget, ?_, ?_⟩
  · show SaveHeader newV1Wrtier P smsz sz ts
      (NewSnapshotWriterFile ++ newV1Wrtier.fileBytes P) = _
    rw [hfb]
    exact hw
  · simp [ValidatePayload, canonHeader, mkSaveHeader, newV1Wrtier]
  · exact validateHeader_mk newV1Wrtier P smsz sz ts

theorem c1_core_v2 (P : List Nat) (smsz sz ts : Nat) :
    ∃ file h, writeSnapshotFile 2 P smsz sz ts = some file ∧
      GetHeader file = .ok (h, P) ∧
      ValidatePayload P h = true ∧ ValidateHeader h = true := by
  have hDlen : (finalHeaderRecord newV2Writer P smsz sz ts).length = 64 := by
    rw [finalHeaderRecord, marshal_length]
    simp [mkSaveHeader, newV2Writer, crc32sum_length]
  have hle : (finalHeaderRecord newV2Writer P smsz sz ts).length ≤ SnapshotHeaderSize - 8 := by
    rw [hDlen]
    simp [SnapshotHeaderSize]
  have hw := writeSnapshot_shape newV2Writer P smsz sz ts hle
  have hfb : newV2Writer.fileBytes P = P ++ List.replicate 16 0 := rfl
  rw [hfb] at hw
  have hum : SnapshotHeader.Unmarshal (finalHeaderRecord newV2Writer P smsz sz ts) =
      some (canonHeader { mkSaveHeader newV2Writer P smsz sz ts with
        HeaderChecksum := crc32sum (mkSaveHeader newV2Writer P smsz sz ts).Marshal }) := by
    rw [finalHeaderRecord]
    apply unmarshal_marshal
    · show (crc32sum P).length < 2 ^ 64
      rw [crc32sum_length]
      norm_num
    · show (crc32sum (mkSaveHeader newV2Writer P smsz sz ts).Marshal).length < 2 ^ 64
      rw [crc32sum_length]
      norm_num
  have hver : (canonHeader { mkSaveHeader newV2Writer P smsz sz ts with
      HeaderChecksum := crc32sum (mkSaveHeader newV2Writer P smsz sz ts).Marshal }).Version =
      2 := by
    simp [canonHeader, mkSaveHeader, newV2Writer]
  have hrd : getVersionReader (canonHeader { mkSaveHeader newV2Writer P smsz sz ts with
      HeaderChecksum := crc32sum (mkSaveHeader newV2Writer P smsz sz ts).Marshal }).Version =
      some newV2Reader := by
    rw [hver]
    rfl
  have hget := getHeader_written_v2 (finalHeaderRecord newV2Writer P smsz sz ts)
    (P ++ List.replicate 16 0) _ newV2Reader hle hum hrd hver
  have htake : (P ++ List.replicate 16 (0 : Nat)).take
      ((P ++ List.replicate 16 (0 : Nat)).length - 16) = P := by
    have hl : (P ++ List.replicate 16 (0 : Nat)).length - 16 = P.length := by
      simp [List.length_append, List.length_replicate]
    rw [hl]
    exact take_len_append P _
  rw [htake] at hget
  refine ⟨_, _, ?_, hget, ?_, ?_⟩
  · show SaveHeader newV2Writer P smsz sz ts
      (NewSnapshotWriterFile ++ newV2Writer.fileBytes P) = _
    rw [hfb]
    exact hw
  · simp [ValidatePayload, canonHeader, mkSaveHeader, newV2Writer]
  · exact validateHeader_mk newV2Writer P smsz sz ts

/-- C1: for every payload byte sequence and every supported version,
    writing the payload through a SnapshotWriter (Write, Flush,
    SaveHeader, Close) and reading the file back through a SnapshotReader
    (GetHeader, then Read to end-of-stream) yields exactly the payload,
    and both ValidatePayload and ValidateHeader succeed on the returned
    header. -/
theorem c1_round_trip (P : List Nat) (v smsz sz ts : Nat) (hv : v = 1 ∨ v = 2) :
    ∃ file h, writeSnapshotFile v P smsz sz ts = some file ∧
      GetHeader file = .ok (h, P) ∧
      ValidatePayload P h = true ∧ ValidateHeader h = true := by
  rcases hv with hv | hv <;> subst hv
  · exact c1_core_v1 P smsz sz ts
  · exact c1_core_v2 P smsz sz ts

theorem c1_round_trip_witness :
    ∃ file h, writeSnapshotFile 1 [10, 20, 30] 2 1 7 = some file ∧
      GetHeader file = .ok (h, [10, 20, 30]) ∧
      ValidatePayload [10, 20, 30] h = true ∧ ValidateHeader h = true :=
  c1_round_trip [10, 20, 30] 1 2 1 7 (Or.inl rfl)

end Rsm
